import Mathlib

/-!
Shallow embedding of the AT25320A/M95040 SPI EEPROM driver
(`eeprom.c` / `EEPROM.h`).

The driver talks to the device through four external primitives:
`spi_lld_polled_exchange` (full-duplex byte exchange),
`pal_lld_setpad` / `pal_lld_clearpad` on the chip-select pin, and
`osalThreadDelayMicroseconds`.  We abstract these as a `Bus` record over
an arbitrary environment state `σ`; every driver function is a direct
translation of the C body, threading `σ` explicitly.  Machine integers
are modelled as `Nat`: a `uint8_t` result is truncated with `% 256`
exactly where the C performs the narrowing conversion
(`EEPROM_exchangeSpi` returns `uint8_t` while the low-level exchange
returns `uint16_t`).

Two instantiations of `Bus` are used by the theorems:
* `traceBus`, which records the exact event sequence (pad writes, byte
  exchanges, delays) and feeds the driver an arbitrary response stream —
  this makes frame-shape statements (`eeprom.c`'s wire behaviour)
  provable;
* `deviceBus`, a reactive model of the EEPROM chip itself (command
  latch on chip-select release, memory array, write-enable latch, busy
  time), used for the write/read round trip.
-/

/-- Opcode `0x06`, `#define EEPROM_SPI_ENABLE_WRITE` in `eeprom.c`. -/
def EEPROM_SPI_ENABLE_WRITE : Nat := 0x06

/-- Opcode `0x04`, `#define EEPROM_SPI_DISABLE_WRITE` in `eeprom.c`. -/
def EEPROM_SPI_DISABLE_WRITE : Nat := 0x04

/-- Opcode `0x05`, `#define EEPROM_SPI_READ_STATUS_REG` in `eeprom.c`. -/
def EEPROM_SPI_READ_STATUS_REG : Nat := 0x05

/-- Opcode `0x01`, `#define EEPROM_SPI_WRITE_STATUS_REG` in `eeprom.c`. -/
def EEPROM_SPI_WRITE_STATUS_REG : Nat := 0x01

/-- Opcode `0x03`, `#define EEPROM_SPI_READ_DATA` in `eeprom.c`. -/
def EEPROM_SPI_READ_DATA : Nat := 0x03

/-- Opcode `0x02`, `#define EEPROM_SPI_WRITE_DATA` in `eeprom.c`. -/
def EEPROM_SPI_WRITE_DATA : Nat := 0x02

/-- Mask `0x01` for the RDY bit, `#define EEPROM_STATUS_BIT_RDY` in `EEPROM.h`. -/
def EEPROM_STATUS_BIT_RDY : Nat := 0x01

/-- Mask `0x02` for the WEN bit, `#define EEPROM_STATUS_BIT_WEN` in `EEPROM.h`. -/
def EEPROM_STATUS_BIT_WEN : Nat := 0x02

/-- Mask `0x0C` for the BP bits, `#define EEPROM_STATUS_BIT_BP` in `EEPROM.h`. -/
def EEPROM_STATUS_BIT_BP : Nat := 0x0C

/-- Mask `0x80` for the WPEN bit, `#define EEPROM_STATUS_BIT_WPEN` in `EEPROM.h`. -/
def EEPROM_STATUS_BIT_WPEN : Nat := 0x80

/-- The `EEPROM_BlockProtection` enum of `EEPROM.h` (values 0,1,2,3). -/
inductive EEPROM_BlockProtection : Type
  | BlockProtection_None : EEPROM_BlockProtection
  | BlockProtection_Quarter : EEPROM_BlockProtection
  | BlockProtection_Half : EEPROM_BlockProtection
  | BlockProtection_WholeMemory : EEPROM_BlockProtection
deriving DecidableEq, Repr

/-- Map the two BP bits (field value 0..3) to the `EEPROM_BlockProtection`
enumerator with that value, per the enumerator initialisers in `EEPROM.h`. -/
def bpOfBits : Nat → EEPROM_BlockProtection
  | 0 => EEPROM_BlockProtection.BlockProtection_None
  | 1 => EEPROM_BlockProtection.BlockProtection_Quarter
  | 2 => EEPROM_BlockProtection.BlockProtection_Half
  | _ => EEPROM_BlockProtection.BlockProtection_WholeMemory

/-- The decoded view of the one-byte status register, mirroring the named
fields of `struct _EEPROM_STAT_REG` in `EEPROM.h`. -/
structure EEPROM_StatusRegister : Type where
  RDY : Nat
  WEN : Nat
  BP : EEPROM_BlockProtection
  WPEN : Nat
deriving DecidableEq, Repr

/-- Decode a raw status byte using the driver's bit layout: the mask macros
`EEPROM_STATUS_BIT_*` of `EEPROM.h` (RDY = `0x01`, WEN = `0x02`,
BP = `0x0C`, WPEN = `0x80`), which agree with the MSB-first bit-field
allocation of `struct _EEPROM_STAT_REG` (declared `WPEN:1, UNUSED:3,
BP:2, WEN:1, RDY:1`) on the driver's big-endian target. -/
def decodeStatusRegister (r : Nat) : EEPROM_StatusRegister :=
  { RDY := r &&& EEPROM_STATUS_BIT_RDY
    WEN := (r &&& EEPROM_STATUS_BIT_WEN) >>> 1
    BP := bpOfBits ((r &&& EEPROM_STATUS_BIT_BP) >>> 2)
    WPEN := (r &&& EEPROM_STATUS_BIT_WPEN) >>> 7 }

/-- High address byte: the expression `(addr >> 8)` that `EEPROM_readByte`,
`EEPROM_writeByte`, `EEPROM_readRange` and `EEPROM_writeRange` pass to
`EEPROM_exchangeSpi` as the first address byte. -/
def addrHigh (addr : Nat) : Nat := addr >>> 8

/-- Low address byte: the expression `(addr & 0xFF)` that the same four
functions pass as the second address byte. -/
def addrLow (addr : Nat) : Nat := addr &&& 0xFF

/-- One observable event at the driver/hardware boundary. -/
inductive Ev : Type
  /-- `pal_lld_setpad(PORT6, PIN_DSPI_CS_EEPROM)`: chip-select pin driven high. -/
  | setpad : Ev
  /-- `pal_lld_clearpad(PORT6, PIN_DSPI_CS_EEPROM)`: chip-select pin driven low. -/
  | clearpad : Ev
  /-- `spi_lld_polled_exchange`: one full-duplex exchange, `sent` out, `recv` in. -/
  | exch (sent recv : Nat) : Ev
  /-- `osalThreadDelayMicroseconds(n)`. -/
  | delayUs (n : Nat) : Ev
deriving DecidableEq, Repr

/-- The external primitives the driver uses, over environment state `σ`:
`exch` is `spi_lld_polled_exchange`, `setpad`/`clearpad` are the
`pal_lld` pad writes on the chip-select pin, `delayUs` is
`osalThreadDelayMicroseconds`. -/
structure Bus (σ : Type) : Type where
  exch : σ → Nat → Nat × σ
  setpad : σ → σ
  clearpad : σ → σ
  delayUs : σ → Nat → σ

/-- `EEPROM_exchangeSpi`: wraps the low-level exchange; the C function
returns `uint8_t`, truncating the 16-bit exchange result. -/
def EEPROM_exchangeSpi {σ : Type} (B : Bus σ) (s : σ) (frame : Nat) : Nat × σ :=
  let p := B.exch s frame
  (p.1 % 256, p.2)

/-- `EEPROM_setChipSelect`: drives the chip-select pad high (`pal_lld_setpad`). -/
def EEPROM_setChipSelect {σ : Type} (B : Bus σ) (s : σ) : σ := B.setpad s

/-- `EEPROM_clearChipSelect`: drives the chip-select pad low (`pal_lld_clearpad`). -/
def EEPROM_clearChipSelect {σ : Type} (B : Bus σ) (s : σ) : σ := B.clearpad s

/-- `EEPROM_enableWrite`. -/
def EEPROM_enableWrite {σ : Type} (B : Bus σ) (s : σ) : σ :=
  let s1 := EEPROM_clearChipSelect B s
  let s2 := (EEPROM_exchangeSpi B s1 EEPROM_SPI_ENABLE_WRITE).2
  EEPROM_setChipSelect B s2

/-- `EEPROM_disableWrite`. -/
def EEPROM_disableWrite {σ : Type} (B : Bus σ) (s : σ) : σ :=
  let s1 := EEPROM_clearChipSelect B s
  let s2 := (EEPROM_exchangeSpi B s1 EEPROM_SPI_DISABLE_WRITE).2
  EEPROM_setChipSelect B s2

/-- `EEPROM_readStatusReg`: returns the status byte and the final state. -/
def EEPROM_readStatusReg {σ : Type} (B : Bus σ) (s : σ) : Nat × σ :=
  let s1 := EEPROM_clearChipSelect B s
  let s2 := (EEPROM_exchangeSpi B s1 EEPROM_SPI_READ_STATUS_REG).2
  let p := EEPROM_exchangeSpi B s2 0
  (p.1, EEPROM_setChipSelect B p.2)

/-- `EEPROM_writeStatusReg`. -/
def EEPROM_writeStatusReg {σ : Type} (B : Bus σ) (s : σ) (cmd : Nat) : σ :=
  let s1 := EEPROM_clearChipSelect B s
  let s2 := (EEPROM_exchangeSpi B s1 EEPROM_SPI_WRITE_STATUS_REG).2
  let s3 := (EEPROM_exchangeSpi B s2 cmd).2
  EEPROM_setChipSelect B s3

/-- `EEPROM_readByte`: returns the data byte and the final state. -/
def EEPROM_readByte {σ : Type} (B : Bus σ) (s : σ) (addr : Nat) : Nat × σ :=
  let s1 := EEPROM_clearChipSelect B s
  let s2 := (EEPROM_exchangeSpi B s1 EEPROM_SPI_READ_DATA).2
  let s3 := (EEPROM_exchangeSpi B s2 (addrHigh addr)).2
  let s4 := (EEPROM_exchangeSpi B s3 (addrLow addr)).2
  let p := EEPROM_exchangeSpi B s4 0
  (p.1, EEPROM_setChipSelect B p.2)

/-- `EEPROM_writeByte`. -/
def EEPROM_writeByte {σ : Type} (B : Bus σ) (s : σ) (addr data : Nat) : σ :=
  let s1 := EEPROM_clearChipSelect B s
  let s2 := (EEPROM_exchangeSpi B s1 EEPROM_SPI_WRITE_DATA).2
  let s3 := (EEPROM_exchangeSpi B s2 (addrHigh addr)).2
  let s4 := (EEPROM_exchangeSpi B s3 (addrLow addr)).2
  let s5 := (EEPROM_exchangeSpi B s4 data).2
  EEPROM_setChipSelect B s5

/-- The `for (i = 0; i < length; i++) data[i] = EEPROM_exchangeSpi(spip, 0);`
loop of `EEPROM_readRange`; `n` is the number of iterations left,
`i` the current index.  The caller's buffer is modelled as `Nat → Nat`. -/
def EEPROM_readRange_loop {σ : Type} (B : Bus σ) :
    σ → (Nat → Nat) → Nat → Nat → (Nat → Nat) × σ
  | s, data, _, 0 => (data, s)
  | s, data, i, n + 1 =>
    let p := EEPROM_exchangeSpi B s 0
    EEPROM_readRange_loop B p.2 (Function.update data i p.1) (i + 1) n

/-- `EEPROM_readRange`: returns the updated buffer and the final state. -/
def EEPROM_readRange {σ : Type} (B : Bus σ) (s : σ) (startAddr : Nat)
    (data : Nat → Nat) (length : Nat) : (Nat → Nat) × σ :=
  let s1 := EEPROM_clearChipSelect B s
  let s2 := (EEPROM_exchangeSpi B s1 EEPROM_SPI_READ_DATA).2
  let s3 := (EEPROM_exchangeSpi B s2 (addrHigh startAddr)).2
  let s4 := (EEPROM_exchangeSpi B s3 (addrLow startAddr)).2
  let p := EEPROM_readRange_loop B s4 data 0 length
  (p.1, EEPROM_setChipSelect B p.2)

/-- The `for (i = 0; i < length; i++) EEPROM_exchangeSpi(spip, data[i]);`
loop of `EEPROM_writeRange`.  The loop body only reads the buffer; it is
threaded through unchanged so the frame effect on the buffer is statable. -/
def EEPROM_writeRange_loop {σ : Type} (B : Bus σ) :
    σ → (Nat → Nat) → Nat → Nat → (Nat → Nat) × σ
  | s, data, _, 0 => (data, s)
  | s, data, i, n + 1 =>
    let p := EEPROM_exchangeSpi B s (data i)
    EEPROM_writeRange_loop B p.2 data (i + 1) n

/-- `EEPROM_writeRange`: returns the (untouched) buffer and the final state. -/
def EEPROM_writeRange {σ : Type} (B : Bus σ) (s : σ) (startAddr : Nat)
    (data : Nat → Nat) (length : Nat) : (Nat → Nat) × σ :=
  let s1 := EEPROM_clearChipSelect B s
  let s2 := (EEPROM_exchangeSpi B s1 EEPROM_SPI_WRITE_DATA).2
  let s3 := (EEPROM_exchangeSpi B s2 (addrHigh startAddr)).2
  let s4 := (EEPROM_exchangeSpi B s3 (addrLow startAddr)).2
  let p := EEPROM_writeRange_loop B s4 data 0 length
  (p.1, EEPROM_setChipSelect B p.2)

/-- `EEPROM_wait`: `while(1) { status = EEPROM_readStatusReg(spip);
if ((status & EEPROM_STATUS_BIT_RDY) == 0) break;
osalThreadDelayMicroseconds(1); }`.  The C loop is unbounded; the
embedding takes a fuel argument and returns `none` when fuel runs out,
so a `none` result for every fuel value is exactly non-termination. -/
def EEPROM_wait {σ : Type} (B : Bus σ) : Nat → σ → Option σ
  | 0, _ => none
  | fuel + 1, s =>
    let p := EEPROM_readStatusReg B s
    if p.1 &&& EEPROM_STATUS_BIT_RDY = 0 then some p.2
    else EEPROM_wait B fuel (B.delayUs p.2 1)

/-- Environment state that records the event trace: `resp n` is the raw
16-bit value the low-level exchange returns on the `n`-th exchange,
`count` the number of exchanges performed so far. -/
structure TraceState : Type where
  resp : Nat → Nat
  count : Nat
  trace : List Ev

/-- The trace-recording instantiation of the external primitives. -/
def traceBus : Bus TraceState where
  exch s b := (s.resp s.count,
    { s with count := s.count + 1, trace := s.trace ++ [Ev.exch b (s.resp s.count)] })
  setpad s := { s with trace := s.trace ++ [Ev.setpad] }
  clearpad s := { s with trace := s.trace ++ [Ev.clearpad] }
  delayUs s n := { s with trace := s.trace ++ [Ev.delayUs n] }

/-- `true` exactly on byte-exchange events. -/
def isExchEv : Ev → Bool
  | Ev.exch _ _ => true
  | _ => false

/-- `post` extends `pre` by one chip-select-framed command: chip-select
driven low, the opcode byte exchanged first, then only byte exchanges,
then chip-select driven high — one assert/de-assert pair bracketing the
whole byte sequence. -/
def opcodeFramed (pre post : List Ev) (op : Nat) : Prop :=
  ∃ r mid, post = pre ++ ([Ev.clearpad, Ev.exch op r] ++ mid ++ [Ev.setpad]) ∧
    ∀ e ∈ mid, isExchEv e = true

/-- Model of the EEPROM chip itself, as required for the round-trip
property: a linear byte array, the write-enable latch, a busy timer
(microseconds of internal write cycle remaining), the chip-select level,
and the bytes received so far in the current frame. -/
structure Device : Type where
  mem : Nat → Nat
  wen : Bool
  busy : Nat
  csLow : Bool
  recvd : List Nat

/-- Write a list of data bytes into the memory array at consecutive
addresses, the device-side effect of latching a write frame. -/
def devWriteSeq (mem : Nat → Nat) (addr : Nat) : List Nat → (Nat → Nat)
  | [] => mem
  | b :: rest => devWriteSeq (Function.update mem addr b) (addr + 1) rest

/-- The byte the device places on the bus for the next exchange, as a
function of the bytes received so far in the current frame: after a read
command and two address bytes it streams the memory array (auto-increment);
after a read-status command it reports the busy flag (RDY, bit 0) and the
write-enable latch (WEN, bit 1); otherwise it drives 0. -/
def devRespond (d : Device) : Nat :=
  match d.recvd with
  | 3 :: hi :: lo :: rest => d.mem (((hi <<< 8) ||| lo) + rest.length)
  | 5 :: _ => (if d.busy ≠ 0 then 1 else 0) ||| (if d.wen then 2 else 0)
  | _ => 0

/-- One full-duplex exchange seen from the device: ignored while
chip-select is high; otherwise the device answers per `devRespond` and
appends the received byte to the current frame. -/
def devExch (d : Device) (b : Nat) : Nat × Device :=
  if d.csLow then (devRespond d, { d with recvd := d.recvd ++ [b] })
  else (0, d)

/-- Chip-select release: the device latches (acts on) the frame it has
received.  `0x06` sets the write-enable latch, `0x04` clears it; a write
frame (`0x02`, two address bytes, data), accepted only when write is
enabled, stores the data bytes at consecutive addresses, clears the
latch and starts a 1 µs internal write cycle.  Other frames are ignored. -/
def devLatch (d : Device) : Device :=
  if d.csLow then
    match d.recvd with
    | [6] => { d with wen := true, csLow := false, recvd := [] }
    | [4] => { d with wen := false, csLow := false, recvd := [] }
    | 2 :: hi :: lo :: ds =>
      if d.wen then
        { d with mem := devWriteSeq d.mem ((hi <<< 8) ||| lo) ds,
                 wen := false, busy := 1, csLow := false, recvd := [] }
      else { d with csLow := false, recvd := [] }
    | _ => { d with csLow := false, recvd := [] }
  else d

/-- The reactive-device instantiation of the external primitives: driving
chip-select low opens a frame, driving it high latches the frame, and a
delay lets the internal write cycle progress. -/
def deviceBus : Bus Device where
  exch := devExch
  setpad := devLatch
  clearpad d := { d with csLow := true, recvd := [] }
  delayUs d n := { d with busy := d.busy - n }

/-- Effect of `EEPROM_enableWrite` on the recording bus. -/
theorem EEPROM_enableWrite_trace (s : TraceState) :
    EEPROM_enableWrite traceBus s =
      ⟨s.resp, s.count + 1,
        s.trace ++ [Ev.clearpad, Ev.exch EEPROM_SPI_ENABLE_WRITE (s.resp s.count), Ev.setpad]⟩ := by
  simp [EEPROM_enableWrite, EEPROM_clearChipSelect, EEPROM_setChipSelect,
    EEPROM_exchangeSpi, traceBus]

/-- Effect of `EEPROM_disableWrite` on the recording bus. -/
theorem EEPROM_disableWrite_trace (s : TraceState) :
    EEPROM_disableWrite traceBus s =
      ⟨s.resp, s.count + 1,
        s.trace ++ [Ev.clearpad, Ev.exch EEPROM_SPI_DISABLE_WRITE (s.resp s.count), Ev.setpad]⟩ := by
  simp [EEPROM_disableWrite, EEPROM_clearChipSelect, EEPROM_setChipSelect,
    EEPROM_exchangeSpi, traceBus]

/-- Effect of `EEPROM_readStatusReg` on the recording bus: the returned status
byte is the (truncated) response to the dummy exchange after the opcode. -/
theorem EEPROM_readStatusReg_trace (s : TraceState) :
    EEPROM_readStatusReg traceBus s =
      (s.resp (s.count + 1) % 256,
       ⟨s.resp, s.count + 2,
        s.trace ++ [Ev.clearpad, Ev.exch EEPROM_SPI_READ_STATUS_REG (s.resp s.count),
          Ev.exch 0 (s.resp (s.count + 1)), Ev.setpad]⟩) := by
  simp [EEPROM_readStatusReg, EEPROM_clearChipSelect, EEPROM_setChipSelect,
    EEPROM_exchangeSpi, traceBus]

/-- Effect of `EEPROM_writeStatusReg` on the recording bus. -/
theorem EEPROM_writeStatusReg_trace (s : TraceState) (cmd : Nat) :
    EEPROM_writeStatusReg traceBus s cmd =
      ⟨s.resp, s.count + 2,
        s.trace ++ [Ev.clearpad, Ev.exch EEPROM_SPI_WRITE_STATUS_REG (s.resp s.count),
          Ev.exch cmd (s.resp (s.count + 1)), Ev.setpad]⟩ := by
  simp [EEPROM_writeStatusReg, EEPROM_clearChipSelect, EEPROM_setChipSelect,
    EEPROM_exchangeSpi, traceBus]

/-- Effect of `EEPROM_readByte` on the recording bus. -/
theorem EEPROM_readByte_trace (s : TraceState) (addr : Nat) :
    EEPROM_readByte traceBus s addr =
      (s.resp (s.count + 3) % 256,
       ⟨s.resp, s.count + 4,
        s.trace ++ [Ev.clearpad, Ev.exch EEPROM_SPI_READ_DATA (s.resp s.count),
          Ev.exch (addrHigh addr) (s.resp (s.count + 1)),
          Ev.exch (addrLow addr) (s.resp (s.count + 2)),
          Ev.exch 0 (s.resp (s.count + 3)), Ev.setpad]⟩) := by
  simp [EEPROM_readByte, EEPROM_clearChipSelect, EEPROM_setChipSelect,
    EEPROM_exchangeSpi, traceBus]

/-- Effect of `EEPROM_writeByte` on the recording bus. -/
theorem EEPROM_writeByte_trace (s : TraceState) (addr data : Nat) :
    EEPROM_writeByte traceBus s addr data =
      ⟨s.resp, s.count + 4,
        s.trace ++ [Ev.clearpad, Ev.exch EEPROM_SPI_WRITE_DATA (s.resp s.count),
          Ev.exch (addrHigh addr) (s.resp (s.count + 1)),
          Ev.exch (addrLow addr) (s.resp (s.count + 2)),
          Ev.exch data (s.resp (s.count + 3)), Ev.setpad]⟩ := by
  simp [EEPROM_writeByte, EEPROM_clearChipSelect, EEPROM_setChipSelect,
    EEPROM_exchangeSpi, traceBus]

/-- Buffer effect of the `EEPROM_readRange` loop: positions `i ≤ j < i + n`
receive the successive (truncated) exchange responses; every other
position keeps its old value. -/
theorem EEPROM_readRange_loop_data (n : Nat) :
    ∀ (s : TraceState) (data : Nat → Nat) (i j : Nat),
      (EEPROM_readRange_loop traceBus s data i n).1 j =
        if i ≤ j ∧ j < i + n then s.resp (s.count + (j - i)) % 256 else data j := by
  induction n with
  | zero =>
    intro s data i j
    rw [EEPROM_readRange_loop, if_neg (by omega)]
  | succ n ih =>
    intro s data i j
    rw [EEPROM_readRange_loop, ih]
    by_cases hj : j = i
    · subst hj
      rw [if_neg (by omega), if_pos (by omega)]
      simp [EEPROM_exchangeSpi, traceBus, Function.update]
    · by_cases hmid : i + 1 ≤ j ∧ j < i + 1 + n
      · rw [if_pos hmid, if_pos (by omega)]
        simp [EEPROM_exchangeSpi, traceBus]
        congr 2
        omega
      · rw [if_neg hmid, if_neg (by omega), Function.update_apply, if_neg hj]

/-- State effect of the `EEPROM_readRange` loop: `n` exchanges of dummy
`0x00` bytes, appended to the trace in order. -/
theorem EEPROM_readRange_loop_state (n : Nat) :
    ∀ (s : TraceState) (data : Nat → Nat) (i : Nat),
      (EEPROM_readRange_loop traceBus s data i n).2 =
        ⟨s.resp, s.count + n,
          s.trace ++ (List.range n).map (fun k => Ev.exch 0 (s.resp (s.count + k)))⟩ := by
  induction n with
  | zero =>
    intro s data i
    rw [EEPROM_readRange_loop]
    simp
  | succ n ih =>
    intro s data i
    rw [EEPROM_readRange_loop, ih]
    simp only [EEPROM_exchangeSpi, traceBus, List.range_succ_eq_map, List.map_cons,
      List.map_map, List.append_assoc, List.cons_append, List.nil_append]
    congr 1
    · omega
    · congr 1
      congr 1
      apply List.map_congr_left
      intro a _
      simp only [Function.comp_apply]
      congr 2
      omega

/-- The `EEPROM_writeRange` loop never modifies the caller's buffer. -/
theorem EEPROM_writeRange_loop_data {σ : Type} (B : Bus σ) (n : Nat) :
    ∀ (s : σ) (data : Nat → Nat) (i : Nat),
      (EEPROM_writeRange_loop B s data i n).1 = data := by
  induction n with
  | zero =>
    intro s data i
    rw [EEPROM_writeRange_loop]
  | succ n ih =>
    intro s data i
    rw [EEPROM_writeRange_loop, ih]

/-- State effect of the `EEPROM_writeRange` loop: `n` exchanges sending
`data[i]`, `data[i+1]`, … in index order, appended to the trace. -/
theorem EEPROM_writeRange_loop_state (n : Nat) :
    ∀ (s : TraceState) (data : Nat → Nat) (i : Nat),
      (EEPROM_writeRange_loop traceBus s data i n).2 =
        ⟨s.resp, s.count + n,
          s.trace ++ (List.range n).map
            (fun k => Ev.exch (data (i + k)) (s.resp (s.count + k)))⟩ := by
  induction n with
  | zero =>
    intro s data i
    rw [EEPROM_writeRange_loop]
    simp
  | succ n ih =>
    intro s data i
    rw [EEPROM_writeRange_loop, ih]
    simp only [EEPROM_exchangeSpi, traceBus, List.range_succ_eq_map, List.map_cons,
      List.map_map, List.append_assoc, List.cons_append, List.nil_append]
    congr 1
    · omega
    · congr 1
      congr 1
      apply List.map_congr_left
      intro a _
      simp only [Function.comp_apply]
      congr 1
      · congr 1
        omega
      · congr 1
        omega

/-- Effect of `EEPROM_readRange` on the recording bus: the full frame is
opcode `0x03`, the two address bytes, `length` dummy exchanges, inside one
chip-select window; the buffer receives the truncated responses at indices
`0 ≤ j < length` and is untouched elsewhere. -/
theorem EEPROM_readRange_trace (s : TraceState) (startAddr : Nat)
    (data : Nat → Nat) (length : Nat) :
    EEPROM_readRange traceBus s startAddr data length =
      ((fun j => if j < length then s.resp (s.count + 3 + j) % 256 else data j),
       ⟨s.resp, s.count + 3 + length,
        s.trace ++ ([Ev.clearpad, Ev.exch EEPROM_SPI_READ_DATA (s.resp s.count),
          Ev.exch (addrHigh startAddr) (s.resp (s.count + 1)),
          Ev.exch (addrLow startAddr) (s.resp (s.count + 2))] ++
          (List.range length).map (fun k => Ev.exch 0 (s.resp (s.count + 3 + k))) ++
          [Ev.setpad])⟩) := by
  have hpre : (EEPROM_exchangeSpi traceBus
      ((EEPROM_exchangeSpi traceBus
        ((EEPROM_exchangeSpi traceBus (EEPROM_clearChipSelect traceBus s)
          EEPROM_SPI_READ_DATA).2) (addrHigh startAddr)).2) (addrLow startAddr)).2 =
      ⟨s.resp, s.count + 3,
        s.trace ++ [Ev.clearpad, Ev.exch EEPROM_SPI_READ_DATA (s.resp s.count),
          Ev.exch (addrHigh startAddr) (s.resp (s.count + 1)),
          Ev.exch (addrLow startAddr) (s.resp (s.count + 2))]⟩ := by
    simp [EEPROM_exchangeSpi, EEPROM_clearChipSelect, traceBus]
  rw [EEPROM_readRange]
  rw [hpre]
  refine Prod.ext ?_ ?_
  · funext j
    show (EEPROM_readRange_loop traceBus _ data 0 length).1 j =
      if j < length then s.resp (s.count + 3 + j) % 256 else data j
    rw [EEPROM_readRange_loop_data]
    by_cases hj : j < length
    · rw [if_pos (by omega), if_pos hj]
      rfl
    · rw [if_neg (by omega), if_neg hj]
  · show EEPROM_setChipSelect traceBus (EEPROM_readRange_loop traceBus _ data 0 length).2 = _
    rw [EEPROM_readRange_loop_state]
    simp only [EEPROM_setChipSelect, traceBus, List.append_assoc, List.cons_append,
      List.nil_append]

/-- Effect of `EEPROM_writeRange` on the recording bus: the full frame is
opcode `0x02`, the two address bytes, then the `length` buffer bytes
`data[0], data[1], …` in index order, inside one chip-select window; the
caller's buffer is returned unchanged. -/
theorem EEPROM_writeRange_trace (s : TraceState) (startAddr : Nat)
    (data : Nat → Nat) (length : Nat) :
    EEPROM_writeRange traceBus s startAddr data length =
      (data,
       ⟨s.resp, s.count + 3 + length,
        s.trace ++ ([Ev.clearpad, Ev.exch EEPROM_SPI_WRITE_DATA (s.resp s.count),
          Ev.exch (addrHigh startAddr) (s.resp (s.count + 1)),
          Ev.exch (addrLow startAddr) (s.resp (s.count + 2))] ++
          (List.range length).map (fun k => Ev.exch (data k) (s.resp (s.count + 3 + k))) ++
          [Ev.setpad])⟩) := by
  have hpre : (EEPROM_exchangeSpi traceBus
      ((EEPROM_exchangeSpi traceBus
        ((EEPROM_exchangeSpi traceBus (EEPROM_clearChipSelect traceBus s)
          EEPROM_SPI_WRITE_DATA).2) (addrHigh startAddr)).2) (addrLow startAddr)).2 =
      ⟨s.resp, s.count + 3,
        s.trace ++ [Ev.clearpad, Ev.exch EEPROM_SPI_WRITE_DATA (s.resp s.count),
          Ev.exch (addrHigh startAddr) (s.resp (s.count + 1)),
          Ev.exch (addrLow startAddr) (s.resp (s.count + 2))]⟩ := by
    simp [EEPROM_exchangeSpi, EEPROM_clearChipSelect, traceBus]
  rw [EEPROM_writeRange]
  rw [hpre]
  refine Prod.ext ?_ ?_
  · show (EEPROM_writeRange_loop traceBus _ data 0 length).1 = _
    rw [EEPROM_writeRange_loop_data]
  · show EEPROM_setChipSelect traceBus (EEPROM_writeRange_loop traceBus _ data 0 length).2 = _
    rw [EEPROM_writeRange_loop_state]
    simp only [EEPROM_setChipSelect, traceBus, List.append_assoc, List.cons_append,
      List.nil_append]
    have hf : (fun k => Ev.exch (data (0 + k)) (s.resp (s.count + 3 + k))) =
        (fun k => Ev.exch (data k) (s.resp (s.count + 3 + k))) := by
      funext k
      rw [Nat.zero_add]
    rw [hf]

/-- One busy iteration of `EEPROM_wait` on the recording bus: a read-status
frame whose status byte has the RDY bit set, followed by
`osalThreadDelayMicroseconds(1)`, then the loop continues. -/
theorem EEPROM_wait_step_busy (fuel : Nat) (s : TraceState)
    (h : ¬ s.resp (s.count + 1) % 256 &&& EEPROM_STATUS_BIT_RDY = 0) :
    EEPROM_wait traceBus (fuel + 1) s =
      EEPROM_wait traceBus fuel
        ⟨s.resp, s.count + 2,
          s.trace ++ [Ev.clearpad, Ev.exch EEPROM_SPI_READ_STATUS_REG (s.resp s.count),
            Ev.exch 0 (s.resp (s.count + 1)), Ev.setpad, Ev.delayUs 1]⟩ := by
  rw [EEPROM_wait, EEPROM_readStatusReg_trace]
  simp [traceBus, h]

/-- The terminating iteration of `EEPROM_wait`: a read-status frame whose
status byte has the RDY bit clear makes the loop return at once. -/
theorem EEPROM_wait_step_ready (fuel : Nat) (s : TraceState)
    (h : s.resp (s.count + 1) % 256 &&& EEPROM_STATUS_BIT_RDY = 0) :
    EEPROM_wait traceBus (fuel + 1) s =
      some ⟨s.resp, s.count + 2,
        s.trace ++ [Ev.clearpad, Ev.exch EEPROM_SPI_READ_STATUS_REG (s.resp s.count),
          Ev.exch 0 (s.resp (s.count + 1)), Ev.setpad]⟩ := by
  rw [EEPROM_wait, EEPROM_readStatusReg_trace]
  simp [h]

/-- If the status source reports busy (RDY set) on the first `k` polls and
ready on poll `k + 1`, `EEPROM_wait` returns after exactly `k + 1`
read-status transactions (each a chip-select assertion and two exchanges). -/
theorem EEPROM_wait_polls (k : Nat) :
    ∀ (fuel : Nat) (s : TraceState), k < fuel →
      (∀ j, j < k → ¬ s.resp (s.count + 2 * j + 1) % 256 &&& EEPROM_STATUS_BIT_RDY = 0) →
      s.resp (s.count + 2 * k + 1) % 256 &&& EEPROM_STATUS_BIT_RDY = 0 →
      ∃ s', EEPROM_wait traceBus fuel s = some s' ∧
        s'.count = s.count + 2 * (k + 1) ∧
        List.count Ev.clearpad s'.trace = List.count Ev.clearpad s.trace + (k + 1) := by
  induction k with
  | zero =>
    intro fuel s hfuel _ hready
    obtain ⟨f, rfl⟩ : ∃ f, fuel = f + 1 := ⟨fuel - 1, by omega⟩
    rw [EEPROM_wait_step_ready f s (by
      have : s.count + 2 * 0 + 1 = s.count + 1 := by omega
      rw [this] at hready
      exact hready)]
    refine ⟨_, rfl, ?_, ?_⟩
    · show s.count + 2 = s.count + 2 * (0 + 1)
      omega
    · show List.count Ev.clearpad (s.trace ++ _) = _
      rw [List.count_append]
      rfl
  | succ k ih =>
    intro fuel s hfuel hbusy hready
    obtain ⟨f, rfl⟩ : ∃ f, fuel = f + 1 := ⟨fuel - 1, by omega⟩
    rw [EEPROM_wait_step_busy f s (by
      have h0 := hbusy 0 (by omega)
      have : s.count + 2 * 0 + 1 = s.count + 1 := by omega
      rw [this] at h0
      exact h0)]
    obtain ⟨s', hw, hc, hn⟩ := ih f
      ⟨s.resp, s.count + 2,
        s.trace ++ [Ev.clearpad, Ev.exch EEPROM_SPI_READ_STATUS_REG (s.resp s.count),
          Ev.exch 0 (s.resp (s.count + 1)), Ev.setpad, Ev.delayUs 1]⟩
      (by omega)
      (by
        intro j hj
        show ¬ s.resp (s.count + 2 + 2 * j + 1) % 256 &&& EEPROM_STATUS_BIT_RDY = 0
        have : s.count + 2 + 2 * j + 1 = s.count + 2 * (j + 1) + 1 := by omega
        rw [this]
        exact hbusy (j + 1) (by omega))
      (by
        show s.resp (s.count + 2 + 2 * k + 1) % 256 &&& EEPROM_STATUS_BIT_RDY = 0
        have : s.count + 2 + 2 * k + 1 = s.count + 2 * (k + 1) + 1 := by omega
        rw [this]
        exact hready)
    refine ⟨s', hw, ?_, ?_⟩
    · rw [hc]
      show s.count + 2 + 2 * (k + 1) = s.count + 2 * (k + 1 + 1)
      omega
    · rw [hn]
      show List.count Ev.clearpad (s.trace ++ _) + (k + 1) = _
      rw [List.count_append]
      show List.count Ev.clearpad s.trace + 1 + (k + 1) = _
      omega

/-- If every status byte the device returns has the RDY bit set,
`EEPROM_wait` never returns, whatever the fuel. -/
theorem EEPROM_wait_diverges :
    ∀ (fuel : Nat) (s : TraceState),
      (∀ n, ¬ s.resp n % 256 &&& EEPROM_STATUS_BIT_RDY = 0) →
      EEPROM_wait traceBus fuel s = none := by
  intro fuel
  induction fuel with
  | zero =>
    intro s _
    rw [EEPROM_wait]
  | succ fuel ih =>
    intro s h
    rw [EEPROM_wait_step_busy fuel s (h _)]
    exact ih _ h

/-- Big-endian split/recombine identity for the two transmitted address
bytes (used both for the spec's arithmetic property and to show the
device model recovers the address the driver sent). -/
theorem addr_recombine (a : Nat) : ((addrHigh a) <<< 8) ||| (addrLow a) = a := by
  show ((a >>> 8) <<< 8) ||| (a &&& 0xFF) = a
  apply Nat.eq_of_testBit_eq
  intro i
  have h255 : (0xFF : Nat) = 2 ^ 8 - 1 := rfl
  rw [Nat.testBit_or, Nat.testBit_shiftLeft, h255, Nat.and_pow_two_sub_one_eq_mod,
      Nat.testBit_mod_two_pow, Nat.testBit_shiftRight]
  by_cases hi : i < 8
  · have h8 : ¬ (8 ≤ i) := by omega
    simp [hi, h8]
  · have h8 : 8 ≤ i := by omega
    have hieq : 8 + (i - 8) = i := by omega
    simp [hi, h8, hieq]

/-- Claim C2: for every 16-bit address `a`, recombining the two transmitted
address bytes is the identity: `(high(a) <<< 8) ||| low(a) = a`, where
`high(a) = a >>> 8` is sent first and `low(a) = a &&& 0xFF` second. -/
theorem claim_C2 (a : Nat) (_ha : a < 65536) :
    ((addrHigh a) <<< 8) ||| (addrLow a) = a :=
  addr_recombine a

/-- Witness for C2 at the concrete address `0xBEEF`. -/
theorem claim_C2_witness :
    (0xBEEF : Nat) < 65536 ∧ ((addrHigh 0xBEEF) <<< 8) ||| (addrLow 0xBEEF) = 0xBEEF :=
  ⟨by decide, claim_C2 0xBEEF (by decide)⟩

/-- Claim C3: decoding the raw status byte `0b10000101` (`0x85`) with the
driver's layout reports RDY = 1, WEN = 0, BP = Quarter, WPEN = 1; i.e.
RDY is bit 0, WEN bit 1, BP bits 2–3, WPEN bit 7. -/
theorem claim_C3 :
    decodeStatusRegister 0b10000101 =
      { RDY := 1, WEN := 0, BP := EEPROM_BlockProtection.BlockProtection_Quarter,
        WPEN := 1 } := by
  decide

/-- Claim C7: within one frame, `EEPROM_readRange` exchanges opcode `0x03`,
the high and low address bytes of `startAddr`, then exactly `N` dummy
`0x00` bytes whose received values become the data; `EEPROM_writeRange`
exchanges opcode `0x02`, the address bytes, then the `N` buffer bytes in
index order (`data 0` first). -/
theorem claim_C7 (s : TraceState) (startAddr : Nat) (data : Nat → Nat) (N : Nat) :
    (EEPROM_readRange traceBus s startAddr data N).2.trace =
      s.trace ++ [Ev.clearpad, Ev.exch 0x03 (s.resp s.count),
        Ev.exch (addrHigh startAddr) (s.resp (s.count + 1)),
        Ev.exch (addrLow startAddr) (s.resp (s.count + 2))] ++
        (List.range N).map (fun k => Ev.exch 0 (s.resp (s.count + 3 + k))) ++
        [Ev.setpad] ∧
    (∀ j, (EEPROM_readRange traceBus s startAddr data N).1 j =
      if j < N then s.resp (s.count + 3 + j) % 256 else data j) ∧
    (EEPROM_writeRange traceBus s startAddr data N).2.trace =
      s.trace ++ [Ev.clearpad, Ev.exch 0x02 (s.resp s.count),
        Ev.exch (addrHigh startAddr) (s.resp (s.count + 1)),
        Ev.exch (addrLow startAddr) (s.resp (s.count + 2))] ++
        (List.range N).map (fun k => Ev.exch (data k) (s.resp (s.count + 3 + k))) ++
        [Ev.setpad] := by
  refine ⟨?_, ?_, ?_⟩
  · rw [EEPROM_readRange_trace]
    simp [EEPROM_SPI_READ_DATA]
  · intro j
    rw [EEPROM_readRange_trace]
  · rw [EEPROM_writeRange_trace]
    simp [EEPROM_SPI_WRITE_DATA]

/-- Claim C8: a range call with length 0 is a no-op on the data: one
chip-select assert/de-assert pair, exactly three exchanged bytes (opcode,
addr-high, addr-low), and the caller's buffer is returned unchanged. -/
theorem claim_C8 (s : TraceState) (startAddr : Nat) (data : Nat → Nat) :
    EEPROM_readRange traceBus s startAddr data 0 =
      (data, ⟨s.resp, s.count + 3,
        s.trace ++ [Ev.clearpad, Ev.exch 0x03 (s.resp s.count),
          Ev.exch (addrHigh startAddr) (s.resp (s.count + 1)),
          Ev.exch (addrLow startAddr) (s.resp (s.count + 2)), Ev.setpad]⟩) ∧
    EEPROM_writeRange traceBus s startAddr data 0 =
      (data, ⟨s.resp, s.count + 3,
        s.trace ++ [Ev.clearpad, Ev.exch 0x02 (s.resp s.count),
          Ev.exch (addrHigh startAddr) (s.resp (s.count + 1)),
          Ev.exch (addrLow startAddr) (s.resp (s.count + 2)), Ev.setpad]⟩) := by
  constructor
  · rw [EEPROM_readRange_trace]
    refine Prod.ext ?_ ?_
    · funext j
      show (if j < 0 then s.resp (s.count + 3 + j) % 256 else data j) = data j
      rw [if_neg (by omega)]
    · simp [EEPROM_SPI_READ_DATA]
  · rw [EEPROM_writeRange_trace]
    refine Prod.ext rfl ?_
    simp [EEPROM_SPI_WRITE_DATA]

/-- Claim C10: `EEPROM_readRange` assigns exactly the buffer entries below
`N` — entry `j` receives the byte returned by the `(j+1)`-th dummy
exchange — and leaves every entry at index `N` or beyond unchanged;
`EEPROM_writeRange` never modifies the caller's buffer. -/
theorem claim_C10 (s : TraceState) (startAddr : Nat) (data : Nat → Nat) (N : Nat) :
    (EEPROM_readRange traceBus s startAddr data N).1 =
      (fun j => if j < N then s.resp (s.count + 3 + j) % 256 else data j) ∧
    (EEPROM_writeRange traceBus s startAddr data N).1 = data := by
  rw [EEPROM_readRange_trace, EEPROM_writeRange_trace]
  exact ⟨rfl, rfl⟩

/-- Claim C1: every driver operation's byte sequence is bracketed by exactly
one chip-select assert/de-assert pair, and the first byte exchanged inside
the frame is the operation's opcode: `0x06`, `0x04`, `0x05`, `0x01`,
`0x03`, `0x02`, `0x03`, `0x02` respectively. -/
theorem claim_C1 (s : TraceState) (cmd addr data : Nat) (buf : Nat → Nat) (length : Nat) :
    opcodeFramed s.trace (EEPROM_enableWrite traceBus s).trace 0x06 ∧
    opcodeFramed s.trace (EEPROM_disableWrite traceBus s).trace 0x04 ∧
    opcodeFramed s.trace (EEPROM_readStatusReg traceBus s).2.trace 0x05 ∧
    opcodeFramed s.trace (EEPROM_writeStatusReg traceBus s cmd).trace 0x01 ∧
    opcodeFramed s.trace (EEPROM_readByte traceBus s addr).2.trace 0x03 ∧
    opcodeFramed s.trace (EEPROM_writeByte traceBus s addr data).trace 0x02 ∧
    opcodeFramed s.trace (EEPROM_readRange traceBus s addr buf length).2.trace 0x03 ∧
    opcodeFramed s.trace (EEPROM_writeRange traceBus s addr buf length).2.trace 0x02 := by
  refine ⟨?_, ?_, ?_, ?_, ?_, ?_, ?_, ?_⟩
  · refine ⟨s.resp s.count, [], ?_, by simp⟩
    rw [EEPROM_enableWrite_trace]
    simp [EEPROM_SPI_ENABLE_WRITE]
  · refine ⟨s.resp s.count, [], ?_, by simp⟩
    rw [EEPROM_disableWrite_trace]
    simp [EEPROM_SPI_DISABLE_WRITE]
  · refine ⟨s.resp s.count, [Ev.exch 0 (s.resp (s.count + 1))], ?_, ?_⟩
    · rw [EEPROM_readStatusReg_trace]
      simp [EEPROM_SPI_READ_STATUS_REG]
    · intro e he
      simp only [List.mem_singleton] at he
      subst he
      rfl
  · refine ⟨s.resp s.count, [Ev.exch cmd (s.resp (s.count + 1))], ?_, ?_⟩
    · rw [EEPROM_writeStatusReg_trace]
      simp [EEPROM_SPI_WRITE_STATUS_REG]
    · intro e he
      simp only [List.mem_singleton] at he
      subst he
      rfl
  · refine ⟨s.resp s.count, [Ev.exch (addrHigh addr) (s.resp (s.count + 1)),
      Ev.exch (addrLow addr) (s.resp (s.count + 2)), Ev.exch 0 (s.resp (s.count + 3))], ?_, ?_⟩
    · rw [EEPROM_readByte_trace]
      simp [EEPROM_SPI_READ_DATA]
    · intro e he
      simp only [List.mem_cons, List.not_mem_nil, or_false] at he
      rcases he with rfl | rfl | rfl <;> rfl
  · refine ⟨s.resp s.count, [Ev.exch (addrHigh addr) (s.resp (s.count + 1)),
      Ev.exch (addrLow addr) (s.resp (s.count + 2)), Ev.exch data (s.resp (s.count + 3))], ?_, ?_⟩
    · rw [EEPROM_writeByte_trace]
      simp [EEPROM_SPI_WRITE_DATA]
    · intro e he
      simp only [List.mem_cons, List.not_mem_nil, or_false] at he
      rcases he with rfl | rfl | rfl <;> rfl
  · refine ⟨s.resp s.count, [Ev.exch (addrHigh addr) (s.resp (s.count + 1)),
      Ev.exch (addrLow addr) (s.resp (s.count + 2))] ++
      (List.range length).map (fun k => Ev.exch 0 (s.resp (s.count + 3 + k))), ?_, ?_⟩
    · rw [EEPROM_readRange_trace]
      simp [EEPROM_SPI_READ_DATA]
    · intro e he
      simp only [List.mem_append, List.mem_cons, List.not_mem_nil, or_false,
        List.mem_map] at he
      rcases he with (rfl | rfl) | ⟨k, _, rfl⟩ <;> rfl
  · refine ⟨s.resp s.count, [Ev.exch (addrHigh addr) (s.resp (s.count + 1)),
      Ev.exch (addrLow addr) (s.resp (s.count + 2))] ++
      (List.range length).map (fun k => Ev.exch (buf k) (s.resp (s.count + 3 + k))), ?_, ?_⟩
    · rw [EEPROM_writeRange_trace]
      simp [EEPROM_SPI_WRITE_DATA]
    · intro e he
      simp only [List.mem_append, List.mem_cons, List.not_mem_nil, or_false,
        List.mem_map] at he
      rcases he with (rfl | rfl) | ⟨k, _, rfl⟩ <;> rfl

/-- Whenever `EEPROM_wait` returns, the last recorded event is the
chip-select de-assertion (`pal_lld_setpad`) of its final status read. -/
theorem EEPROM_wait_trace_ends_setpad :
    ∀ (fuel : Nat) (s s' : TraceState),
      EEPROM_wait traceBus fuel s = some s' →
      s'.trace.getLast? = some Ev.setpad := by
  intro fuel
  induction fuel with
  | zero =>
    intro s s' h
    rw [EEPROM_wait] at h
    cases h
  | succ fuel ih =>
    intro s s' h
    by_cases hc : s.resp (s.count + 1) % 256 &&& EEPROM_STATUS_BIT_RDY = 0
    · rw [EEPROM_wait_step_ready fuel s hc] at h
      cases h
      show (s.trace ++ [Ev.clearpad, Ev.exch EEPROM_SPI_READ_STATUS_REG (s.resp s.count),
        Ev.exch 0 (s.resp (s.count + 1)), Ev.setpad]).getLast? = some Ev.setpad
      rw [List.getLast?_append]
      rfl
    · rw [EEPROM_wait_step_busy fuel s hc] at h
      exact ih _ _ h

/-- Claim C9: chip-select is active-low — the driver asserts it with
`pal_lld_clearpad` and de-asserts it with `pal_lld_setpad` — and every
operation's last recorded event, `EEPROM_wait` included, is the
de-assertion, so the bus is never left asserted on return. -/
theorem claim_C9 (s : TraceState) (cmd addr data : Nat) (buf : Nat → Nat) (length fuel : Nat) :
    EEPROM_setChipSelect traceBus s = ⟨s.resp, s.count, s.trace ++ [Ev.setpad]⟩ ∧
    EEPROM_clearChipSelect traceBus s = ⟨s.resp, s.count, s.trace ++ [Ev.clearpad]⟩ ∧
    (EEPROM_enableWrite traceBus s).trace.getLast? = some Ev.setpad ∧
    (EEPROM_disableWrite traceBus s).trace.getLast? = some Ev.setpad ∧
    (EEPROM_readStatusReg traceBus s).2.trace.getLast? = some Ev.setpad ∧
    (EEPROM_writeStatusReg traceBus s cmd).trace.getLast? = some Ev.setpad ∧
    (EEPROM_readByte traceBus s addr).2.trace.getLast? = some Ev.setpad ∧
    (EEPROM_writeByte traceBus s addr data).trace.getLast? = some Ev.setpad ∧
    (EEPROM_readRange traceBus s addr buf length).2.trace.getLast? = some Ev.setpad ∧
    (EEPROM_writeRange traceBus s addr buf length).2.trace.getLast? = some Ev.setpad ∧
    (∀ s', EEPROM_wait traceBus fuel s = some s' → s'.trace.getLast? = some Ev.setpad) := by
  refine ⟨rfl, rfl, ?_, ?_, ?_, ?_, ?_, ?_, ?_, ?_,
    fun s' h => EEPROM_wait_trace_ends_setpad fuel s s' h⟩
  · rw [EEPROM_enableWrite_trace]
    simp [List.getLast?_append]
  · rw [EEPROM_disableWrite_trace]
    simp [List.getLast?_append]
  · rw [EEPROM_readStatusReg_trace]
    simp [List.getLast?_append]
  · rw [EEPROM_writeStatusReg_trace]
    simp [List.getLast?_append]
  · rw [EEPROM_readByte_trace]
    simp [List.getLast?_append]
  · rw [EEPROM_writeByte_trace]
    simp [List.getLast?_append]
  · rw [EEPROM_readRange_trace]
    simp [List.getLast?_append, List.getLast?_concat]
    rw [← List.cons_append, List.getLast?_concat]
  · rw [EEPROM_writeRange_trace]
    simp [List.getLast?_append, List.getLast?_concat]
    rw [← List.cons_append, List.getLast?_concat]

/-- Witness for C9's `EEPROM_wait` conjunct on a concrete one-poll run. -/
theorem claim_C9_witness :
    EEPROM_wait traceBus 1 ⟨fun _ => 0, 0, []⟩ =
      some ⟨fun _ => 0, 2, [Ev.clearpad, Ev.exch EEPROM_SPI_READ_STATUS_REG 0,
        Ev.exch 0 0, Ev.setpad]⟩ ∧
    (⟨fun _ => 0, 2, [Ev.clearpad, Ev.exch EEPROM_SPI_READ_STATUS_REG 0,
        Ev.exch 0 0, Ev.setpad]⟩ : TraceState).trace.getLast? = some Ev.setpad := by
  have hw : EEPROM_wait traceBus 1 ⟨fun _ => 0, 0, []⟩ =
      some ⟨fun _ => 0, 2, [Ev.clearpad, Ev.exch EEPROM_SPI_READ_STATUS_REG 0,
        Ev.exch 0 0, Ev.setpad]⟩ :=
    EEPROM_wait_step_ready 0 ⟨fun _ => 0, 0, []⟩ (by decide)
  exact ⟨hw,
    (claim_C9 ⟨fun _ => 0, 0, []⟩ 0 0 0 (fun _ => 0) 0 1).2.2.2.2.2.2.2.2.2.2 _ hw⟩

/-- Claim C4: if the status source reports RDY set on exactly the first `k`
status reads and RDY clear on the `(k+1)`-th, `EEPROM_wait` performs
exactly `k+1` read-status transactions (counted by chip-select
assertions; each is two exchanges) and then returns. -/
theorem claim_C4 (k fuel : Nat) (s : TraceState)
    (hfuel : k < fuel)
    (hbusy : ∀ j, j < k → ¬ s.resp (s.count + 2 * j + 1) % 256 &&& EEPROM_STATUS_BIT_RDY = 0)
    (hready : s.resp (s.count + 2 * k + 1) % 256 &&& EEPROM_STATUS_BIT_RDY = 0) :
    ∃ s', EEPROM_wait traceBus fuel s = some s' ∧
      s'.count = s.count + 2 * (k + 1) ∧
      List.count Ev.clearpad s'.trace = List.count Ev.clearpad s.trace + (k + 1) :=
  EEPROM_wait_polls k fuel s hfuel hbusy hready

/-- Witness for C4 at `k = 50`: a source busy for the first 50 polls and
ready on the 51st. -/
theorem claim_C4_witness :
    ∃ s', EEPROM_wait traceBus 51 ⟨fun n => if n ≤ 100 then 1 else 0, 0, []⟩ = some s' ∧
      s'.count = 0 + 2 * (50 + 1) ∧
      List.count Ev.clearpad s'.trace = List.count Ev.clearpad ([] : List Ev) + (50 + 1) :=
  claim_C4 50 51 ⟨fun n => if n ≤ 100 then 1 else 0, 0, []⟩ (by decide)
    (by decide) (by decide)

/-- Claim C6: `EEPROM_wait` has no iteration bound or timeout.  If every
status byte has the RDY bit set it never returns (for every fuel the
bounded unfolding is still running); a busy poll is followed by
`osalThreadDelayMicroseconds(1)` before the next status read; and the
loop returns as soon as a status read yields RDY clear. -/
theorem claim_C6 :
    (∀ (s : TraceState), (∀ n, ¬ s.resp n % 256 &&& EEPROM_STATUS_BIT_RDY = 0) →
      ∀ fuel, EEPROM_wait traceBus fuel s = none) ∧
    (∀ (fuel : Nat) (s : TraceState),
      ¬ s.resp (s.count + 1) % 256 &&& EEPROM_STATUS_BIT_RDY = 0 →
      EEPROM_wait traceBus (fuel + 1) s =
        EEPROM_wait traceBus fuel
          ⟨s.resp, s.count + 2,
            s.trace ++ [Ev.clearpad, Ev.exch EEPROM_SPI_READ_STATUS_REG (s.resp s.count),
              Ev.exch 0 (s.resp (s.count + 1)), Ev.setpad, Ev.delayUs 1]⟩) ∧
    (∀ (fuel : Nat) (s : TraceState),
      s.resp (s.count + 1) % 256 &&& EEPROM_STATUS_BIT_RDY = 0 →
      EEPROM_wait traceBus (fuel + 1) s =
        some ⟨s.resp, s.count + 2,
          s.trace ++ [Ev.clearpad, Ev.exch EEPROM_SPI_READ_STATUS_REG (s.resp s.count),
            Ev.exch 0 (s.resp (s.count + 1)), Ev.setpad]⟩) :=
  ⟨fun s h fuel => EEPROM_wait_diverges fuel s h,
   fun fuel s h => EEPROM_wait_step_busy fuel s h,
   fun fuel s h => EEPROM_wait_step_ready fuel s h⟩

/-- Witness for C6 on concrete runs: an always-busy source never returns
(checked at fuel 5), one busy poll appends the delay event, and a ready
poll returns at once. -/
theorem claim_C6_witness :
    EEPROM_wait traceBus 5 ⟨fun _ => 1, 0, []⟩ = none ∧
    EEPROM_wait traceBus 3 ⟨fun _ => 1, 0, []⟩ =
      EEPROM_wait traceBus 2 ⟨fun _ => 1, 2,
        [Ev.clearpad, Ev.exch EEPROM_SPI_READ_STATUS_REG 1, Ev.exch 0 1,
         Ev.setpad, Ev.delayUs 1]⟩ ∧
    EEPROM_wait traceBus 1 ⟨fun _ => 0, 0, []⟩ =
      some ⟨fun _ => 0, 2, [Ev.clearpad, Ev.exch EEPROM_SPI_READ_STATUS_REG 0,
        Ev.exch 0 0, Ev.setpad]⟩ :=
  ⟨claim_C6.1 ⟨fun _ => 1, 0, []⟩
      (fun n => show ¬ (1 : Nat) % 256 &&& EEPROM_STATUS_BIT_RDY = 0 by decide) 5,
   claim_C6.2.1 2 ⟨fun _ => 1, 0, []⟩ (by decide),
   claim_C6.2.2 0 ⟨fun _ => 0, 0, []⟩ (by decide)⟩

/-- Claim C5: on the reactive device model (which latches a write frame
into its memory array), enable-write, then write-byte of `v` at `a`, then
waiting for completion, then read-byte at `a`, returns `v`. -/
theorem claim_C5 (mem : Nat → Nat) (a v : Nat) (_ha : a < 65536) (hv : v < 256) :
    ∃ d', EEPROM_wait deviceBus 2
        (EEPROM_writeByte deviceBus
          (EEPROM_enableWrite deviceBus ⟨mem, false, 0, false, []⟩) a v) = some d' ∧
      (EEPROM_readByte deviceBus d' a).1 = v := by
  have h1 : EEPROM_enableWrite deviceBus ⟨mem, false, 0, false, []⟩ =
      ⟨mem, true, 0, false, []⟩ := by
    simp [EEPROM_enableWrite, EEPROM_clearChipSelect, EEPROM_setChipSelect,
      EEPROM_exchangeSpi, deviceBus, devExch, devRespond, devLatch, EEPROM_SPI_ENABLE_WRITE]
  have h2 : EEPROM_writeByte deviceBus ⟨mem, true, 0, false, []⟩ a v =
      ⟨Function.update mem a v, false, 1, false, []⟩ := by
    simp [EEPROM_writeByte, EEPROM_clearChipSelect, EEPROM_setChipSelect,
      EEPROM_exchangeSpi, deviceBus, devExch, devRespond, devLatch, EEPROM_SPI_WRITE_DATA,
      devWriteSeq]
    rw [addr_recombine]
  have hs1 : EEPROM_readStatusReg deviceBus ⟨Function.update mem a v, false, 1, false, []⟩ =
      (1, ⟨Function.update mem a v, false, 1, false, []⟩) := by
    simp [EEPROM_readStatusReg, EEPROM_clearChipSelect, EEPROM_setChipSelect,
      EEPROM_exchangeSpi, deviceBus, devExch, devRespond, devLatch,
      EEPROM_SPI_READ_STATUS_REG]
  have hs2 : EEPROM_readStatusReg deviceBus ⟨Function.update mem a v, false, 0, false, []⟩ =
      (0, ⟨Function.update mem a v, false, 0, false, []⟩) := by
    simp [EEPROM_readStatusReg, EEPROM_clearChipSelect, EEPROM_setChipSelect,
      EEPROM_exchangeSpi, deviceBus, devExch, devRespond, devLatch,
      EEPROM_SPI_READ_STATUS_REG]
  have h3 : EEPROM_wait deviceBus 2 ⟨Function.update mem a v, false, 1, false, []⟩ =
      some ⟨Function.update mem a v, false, 0, false, []⟩ := by
    rw [EEPROM_wait, hs1]
    rw [if_neg (show ¬ ((1 : Nat) &&& EEPROM_STATUS_BIT_RDY = 0) by decide)]
    rw [EEPROM_wait]
    have hd : deviceBus.delayUs
        (1, (⟨Function.update mem a v, false, 1, false, []⟩ : Device)).2 1 =
        (⟨Function.update mem a v, false, 0, false, []⟩ : Device) := rfl
    rw [hd, hs2]
    rw [if_pos (show ((0 : Nat) &&& EEPROM_STATUS_BIT_RDY = 0) by decide)]
  have h4 : (EEPROM_readByte deviceBus ⟨Function.update mem a v, false, 0, false, []⟩ a).1
      = v := by
    simp [EEPROM_readByte, EEPROM_clearChipSelect, EEPROM_setChipSelect,
      EEPROM_exchangeSpi, deviceBus, devExch, devRespond, devLatch, EEPROM_SPI_READ_DATA]
    rw [addr_recombine]
    simp [Nat.mod_eq_of_lt hv]
  exact ⟨⟨Function.update mem a v, false, 0, false, []⟩, by rw [h1, h2, h3], h4⟩

/-- Witness for C5: writing `0xAB` at `0x1234` on a zeroed device and
reading it back. -/
theorem claim_C5_witness :
    ∃ d', EEPROM_wait deviceBus 2
        (EEPROM_writeByte deviceBus
          (EEPROM_enableWrite deviceBus ⟨fun _ => 0, false, 0, false, []⟩) 0x1234 0xAB)
        = some d' ∧
      (EEPROM_readByte deviceBus d' 0x1234).1 = 0xAB :=
  claim_C5 (fun _ => 0) 0x1234 0xAB (by decide) (by decide)
